import Mathlib

/-!
Verification of the miCASA vegetation-index module (`src/modvir/vegind.py`).

Shallow embedding conventions:

* Floating-point cell values are modelled as `Option ℚ`: `some v` is an
  ordinary number, `none` is the undefined (not-a-number) marker that numpy
  produces for 0/0 (and that we also use for the x/0 infinities, which the
  pipeline treats the same way: they arise only from degenerate reflectance
  sums and are silently propagated).  Numpy comparison semantics are kept:
  any comparison against the undefined marker is false, and arithmetic on it
  stays undefined.
* The 2-D arrays of the source are flattened to lists indexed by a single
  cell number; a grid's shape is its length.
* The grid geometry (`modvir.geometry.edges` / `singrid`) and the 2-D
  histogram binning of `np.histogram2d` are outside this file's sources;
  they are modelled abstractly by a parameter `bin : ℚ → ℚ → Option ℕ`
  taking a pixel's (lat, lon) to the flattened output cell it falls in
  (`none` when the pixel lies outside the grid, which `histogram2d` drops).
  Every theorem below holds for an arbitrary such `bin`.
* Exceptions become `Except`: `_regrid` returns an error value instead of
  raising, and producing `Except.error` writes nothing.
-/

/-- Simple way to exclude most water, etc. (`NDVIMIN = -0.3` in the source). -/
def NDVIMIN : ℚ := -0.3

/-- Los et al. (2000) lower fPAR bound (`fPMIN = 0.01`). -/
def fPMIN : ℚ := 0.01

/-- Los et al. (2000) upper fPAR bound (`fPMAX = 0.95`). -/
def fPMAX : ℚ := 0.95

/-- Modelled from the spec: `NTYPE` lives in `modvir.config`, which is not
among the sources; the spec fixes an 18-class land-cover table, matching the
length of the `NDVI02P`/`NDVI98P` tables in the source. -/
def NTYPE : ℕ := 18

/-- 2nd-percentile NDVI per land-cover class (source table `NDVI02P`). -/
def NDVI02P : List ℚ :=
  [0.0330, 0.0330, 0.0330, 0.0330, 0.0330, 0.0330, 0.0330, 0.0330,
   0.0330, 0.0330, 0.0330, 0.0330, 0.0330, 0.0330, 0.0330, 0.0330, 0.0330,
   0.0330]

/-- 98th-percentile NDVI per land-cover class (source table `NDVI98P`). -/
def NDVI98P : List ℚ :=
  [0.7200, 0.8400, 0.8800, 0.8000, 0.8800, 0.8600, 0.7400, 0.7200,
   0.8000, 0.8000, 0.7200, 0.7800, 0.7800, 0.7800, 0.8200, 0.7200, 0.7200,
   0.7200]

/-- One input pixel of a granule: its sinusoidal-mesh coordinates (as
produced by `singrid`), the two reflectance bands and their quality flags. -/
structure Pixel where
  lat : ℚ
  lon : ℚ
  red : ℚ
  nir : ℚ
  redqc : ℕ
  nirqc : ℕ
deriving DecidableEq, Repr

/-- The per-pixel eligibility test `iok` of `_regrid`:
`abs(redin) != 32767, redqc != 255, abs(nirin) != 32767, nirqc != 255,
NDVIMIN*(nirin + redin) <= nirin - redin`, all conjoined. -/
def iok (p : Pixel) : Bool :=
  (|p.red| ≠ 32767) && (p.redqc ≠ 255) &&
  (|p.nir| ≠ 32767) && (p.nirqc ≠ 255) &&
  (NDVIMIN * (p.nir + p.red) ≤ p.nir - p.red)

/-- The pixels of one granule that `np.histogram2d` counts into output cell
`c`: the eligible ones whose coordinates fall in that cell's bin. -/
def binned (bin : ℚ → ℚ → Option ℕ) (c : ℕ) (g : List Pixel) : List Pixel :=
  g.filter (fun p => iok p && bin p.lat p.lon == some c)

/-- Per-granule pixel count for cell `c` (`numgran` in the source). -/
def numgran (bin : ℚ → ℚ → Option ℕ) (c : ℕ) (g : List Pixel) : ℚ :=
  ((binned bin c g).length : ℚ)

/-- Per-granule red-reflectance sum for cell `c` (`redgran`). -/
def redgran (bin : ℚ → ℚ → Option ℕ) (c : ℕ) (g : List Pixel) : ℚ :=
  ((binned bin c g).map Pixel.red).sum

/-- Per-granule near-infrared sum for cell `c` (`nirgran`). -/
def nirgran (bin : ℚ → ℚ → Option ℕ) (c : ℕ) (g : List Pixel) : ℚ :=
  ((binned bin c g).map Pixel.nir).sum

/-- Accumulated pixel count over a list of granules (`num`): the source's
loop `num = num + numgran` starting from zeros. -/
def accumNum (bin : ℚ → ℚ → Option ℕ) (files : List (List Pixel)) (c : ℕ) : ℚ :=
  (files.map (numgran bin c)).sum

/-- Accumulated red sum over a list of granules (`red`). -/
def accumRed (bin : ℚ → ℚ → Option ℕ) (files : List (List Pixel)) (c : ℕ) : ℚ :=
  (files.map (redgran bin c)).sum

/-- Accumulated near-infrared sum over a list of granules (`nir`). -/
def accumNir (bin : ℚ → ℚ → Option ℕ) (files : List (List Pixel)) (c : ℕ) : ℚ :=
  (files.map (nirgran bin c)).sum

/-- Division as performed under `np.errstate(divide='ignore',
invalid='ignore')`: a zero denominator yields the undefined marker instead
of raising or warning. -/
def fdiv (a b : ℚ) : Option ℚ :=
  if b = 0 then none else some (a / b)

/-- The NDVI derivation `ndvi = (nir - red)/(nir + red)` for one cell. -/
def deriveNDVI (red nir : ℚ) : Option ℚ :=
  fdiv (nir - red) (nir + red)

/-- One cell of the mask blend `ndvi = (ndvi - NDVIMIN)*mask + NDVIMIN`;
an undefined NDVI stays undefined (NaN arithmetic). -/
def blendCell (x : Option ℚ) (m : ℚ) : Option ℚ :=
  x.map (fun v => (v - NDVIMIN) * m + NDVIMIN)

/-- The simple-ratio transform `srfun` of `_ndvi2fpar_los`. -/
def srfun (x : ℚ) : ℚ := (1 + x) / (1 - x)

/-- One cell of `_ndvi2fpar_los` (Los et al. (2000) formulation): land-cover
classes outside `[0, NTYPE)` (or missing, modelling a NaN class value) leave
the cell at its `np.zeros_like` initial value; an undefined NDVI propagates
through the formula and is zeroed by `fpar[np.isnan(fpar)] = 0`. -/
def ndvi2fparLosCell (lct : Option ℤ) (x : Option ℚ) : ℚ :=
  match x, lct with
  | some v, some k =>
    if 0 ≤ k ∧ k < (NTYPE : ℤ) then
      let N0 := NDVI02P.getD k.toNat 0
      let N1 := NDVI98P.getD k.toNat 0
      let S0 := srfun N0
      let S1 := srfun N1
      let sr := srfun (min v N1)
      let fpsr := max fPMIN (min fPMAX ((sr - S0) * (fPMAX - fPMIN) / (S1 - S0) + fPMIN))
      let fpnd := max fPMIN (min fPMAX ((v - N0) * (fPMAX - fPMIN) / (N1 - N0) + fPMIN))
      0.5 * (fpsr + fpnd)
    else 0
  | _, _ => 0

/-- One cell of `_ndvi2fpar_lin` (simple linear transform with
`N0 = 0.10`, `N1 = 0.80`, clamped to `[fPMIN, fPMAX]`); an undefined NDVI
propagates and is zeroed by `fpar[np.isnan(fpar)] = 0`. -/
def ndvi2fparLinCell (x : Option ℚ) : ℚ :=
  match x with
  | none => 0
  | some v =>
    let N0 : ℚ := 0.10
    let N1 : ℚ := 0.80
    max fPMIN (min fPMAX ((v - N0) * (fPMAX - fPMIN) / (N1 - N0) + fPMIN))

/-- One cell of `_ndvi2fpar_jojo` (Joiner et al. (2018) formulation,
`N0 = 0.15`, `N1 = 0.75`): cells in neither the `iramp` nor the `ifree`
mask keep the `np.zeros_like` value, and an undefined NDVI satisfies
neither comparison (numpy NaN semantics), so it also yields 0. -/
def ndvi2fparJojoCell (x : Option ℚ) : ℚ :=
  match x with
  | none => 0
  | some v =>
    let N0 : ℚ := 0.15
    let N1 : ℚ := 0.75
    if N0 < v ∧ v ≤ N1 then (v - N0) / (N1 - N0) * N1
    else if N1 < v then v
    else 0

/-- Grid-level `_ndvi2fpar_lin`. -/
def ndvi2fparLin (g : List (Option ℚ)) : List ℚ := g.map ndvi2fparLinCell

/-- Grid-level `_ndvi2fpar_jojo`. -/
def ndvi2fparJojo (g : List (Option ℚ)) : List ℚ := g.map ndvi2fparJojoCell

/-- Grid-level `_ndvi2fpar_los`; the land-cover field must share the NDVI
grid's shape. -/
def ndvi2fparLos (lc : List (Option ℤ)) (g : List (Option ℚ)) : List ℚ :=
  List.zipWith ndvi2fparLosCell lc g

/-- The error raised by `_regrid` when the glob over the input directory
matches no `*.hdf` file: the code raises `EOFError('no files to open')`,
which the spec's interface names `NoInputDataError`. -/
inductive RegridError where
  | noInputData
deriving DecidableEq, Repr

/-- `os.path.basename`: the component after the last path separator. -/
def basename (s : String) : String :=
  String.mk ((s.data.reverse.takeWhile (fun c => c ≠ '/')).reverse)

/-- One granule file: its file name and its pixels (what the external
granule reader exposes from `rxr.open_rasterio`). -/
structure Granule where
  name : String
  pixels : List Pixel
deriving DecidableEq, Repr

/-- The `VegInd` dataset: coordinate arrays, the (flattened) NDVI variable,
the optional fPAR variable, and the attribute dictionary. -/
structure VegIndDS where
  lat : List ℚ
  lon : List ℚ
  ndvi : List (Option ℚ)
  fpar : Option (List ℚ)
  attrs : List (String × String)
deriving DecidableEq, Repr

/-- Dictionary update `dsout.attrs['input_files'] = v`. -/
def setAttr (attrs : List (String × String)) (k v : String) : List (String × String) :=
  (k, v) :: attrs.filter (fun a => a.1 ≠ k)

/-- Dictionary lookup (empty string when the key is absent). -/
def getAttr (attrs : List (String × String)) (k : String) : String :=
  ((attrs.find? (fun a => a.1 == k)).map Prod.snd).getD ""

/-- The derived NDVI grid of `_regrid` before masking: for each of the `n`
output cells, the accumulated ratio `(nir - red)/(nir + red)`. -/
def regridNDVI (bin : ℚ → ℚ → Option ℕ) (files : List (List Pixel)) (n : ℕ) :
    List (Option ℚ) :=
  (List.range n).map (fun c => deriveNDVI (accumRed bin files c) (accumNir bin files c))

/-- The optional mask blend of `_regrid`. -/
def applyMask (ndvi : List (Option ℚ)) (mask : Option (List ℚ)) : List (Option ℚ) :=
  match mask with
  | none => ndvi
  | some m => List.zipWith blendCell ndvi m

/-- The `input_files` provenance attribute:
`', '.join([path.basename(ff) for ff in flist])`, with `flist` in the order
the glob returned it. -/
def inputFilesAttr (flist : List String) : String :=
  String.intercalate ", " (flist.map basename)

/-- `_regrid(dsout, dirin, mask)`.  The glob result (file names with their
pixel contents) is a parameter, since file discovery is external; an empty
match set is the fatal no-input-data failure, and on failure no field of the
dataset is written. -/
def regrid (dsout : VegIndDS) (bin : ℚ → ℚ → Option ℕ) (flist : List Granule)
    (mask : Option (List ℚ)) : Except RegridError VegIndDS :=
  if flist.isEmpty then .error .noInputData
  else
    let ndvi0 := regridNDVI bin (flist.map Granule.pixels) dsout.ndvi.length
    let ndvi1 := applyMask ndvi0 mask
    .ok { dsout with
          ndvi := ndvi1,
          attrs := setAttr dsout.attrs "input_files"
            (inputFilesAttr (flist.map Granule.name)) }

/-- `VegInd.ndvi2fpar`: returns `self.assign(fPAR=...)`, a new dataset with
the fPAR variable computed by the active policy `_ndvi2fpar_jojo`; the
`lctype` argument is accepted but unused by the active policy. -/
def VegIndDS.ndvi2fpar (ds : VegIndDS) (lctype : List (Option ℤ)) : VegIndDS :=
  { ds with fpar := some (ndvi2fparJojo ds.ndvi) }

/-- Lexicographic order on char lists (the order `sorted` uses on ASCII
file names). -/
def charListLE : List Char → List Char → Bool
  | [], _ => true
  | _ :: _, [] => false
  | a :: as, b :: bs => if a = b then charListLE as bs else decide (a < b)

/-- Insertion of a string into a sorted list (for the spec-side sorted
provenance list). -/
def insertSorted (s : String) : List String → List String
  | [] => [s]
  | t :: ts => if charListLE s.data t.data then s :: t :: ts else t :: insertSorted s ts

/-- Insertion sort on strings. -/
def sortNames (l : List String) : List String := l.foldr insertSorted []

/-- The provenance attribute as claim C9 describes it: the sorted list of
contributing basenames, comma-joined.  Defined from the spec's words, to be
compared against `inputFilesAttr` (which follows the source). -/
def specInputFiles (flist : List String) : String :=
  String.intercalate ", " (sortNames (flist.map basename))

/-- The reference piecewise NDVI→fPAR map of Policy C as the spec states it
(`N0 = 0.15`, `N1 = 0.75`): 0 at or below `N0`, the ramp
`(ndvi - N0)/(N1 - N0) * N1` between `N0` and `N1`, the identity above
`N1`, and 0 on undefined input.  Defined from the spec's words, to be
compared against `ndvi2fparJojoCell` (which follows the source). -/
def refPolicyC (x : Option ℚ) : ℚ :=
  match x with
  | none => 0
  | some v =>
    if v ≤ 0.15 then 0
    else if v ≤ 0.75 then (v - 0.15) / (0.75 - 0.15) * 0.75
    else v

/-- Trivial binning fixture: every coordinate falls in cell 0. -/
def bin0 : ℚ → ℚ → Option ℕ := fun _ _ => some 0

/-- Eligible test pixel (valid reflectances and flags, NDVI above floor). -/
def okPix : Pixel := ⟨0, 0, 100, 300, 0, 0⟩

/-- Test pixel with red reflectance magnitude exactly 32767. -/
def badPix : Pixel := ⟨0, 0, 32767, 100, 0, 0⟩

/-- Test pixel with negative band sum: it passes the NDVI-floor filter even
though its implied NDVI is -0.4. -/
def pNeg : Pixel := ⟨0, 0, -7, -3, 0, 0⟩

/-- One-cell test dataset. -/
def dsTest : VegIndDS := ⟨[0], [0], [none], none, []⟩

/-- Members of a list of nonnegative rationals summing to zero are all zero. -/
lemma mem_eq_zero_of_sum_eq_zero {l : List ℚ} (hl : ∀ x ∈ l, 0 ≤ x)
    (h : l.sum = 0) : ∀ x ∈ l, x = 0 := by
  induction l with
  | nil => simp
  | cons a t ih =>
    have ha : 0 ≤ a := hl a (by simp)
    have ht : ∀ x ∈ t, 0 ≤ x := fun x hx => hl x (by simp [hx])
    have hts : 0 ≤ t.sum := List.sum_nonneg ht
    rw [List.sum_cons] at h
    have h1 : a = 0 := by linarith
    have h2 : t.sum = 0 := by linarith
    intro x hx
    rcases List.mem_cons.mp hx with rfl | hx
    · exact h1
    · exact ih ht h2 x hx

/-- A cell with no eligible binned pixels in any granule. -/
lemma binned_eq_nil_of_accumNum_eq_zero (bin : ℚ → ℚ → Option ℕ)
    (files : List (List Pixel)) (c : ℕ) (h : accumNum bin files c = 0) :
    ∀ g ∈ files, binned bin c g = [] := by
  intro g hg
  have hnn : ∀ x ∈ files.map (numgran bin c), 0 ≤ x := by
    intro x hx
    obtain ⟨g', _, rfl⟩ := List.mem_map.mp hx
    exact Nat.cast_nonneg _
  have h0 : numgran bin c g = 0 :=
    mem_eq_zero_of_sum_eq_zero hnn h _ (List.mem_map.mpr ⟨g, hg, rfl⟩)
  have hc : ((binned bin c g).length : ℚ) = 0 := h0
  exact List.length_eq_zero.mp (by exact_mod_cast hc)

/-- Both clamped estimates of `_ndvi2fpar_los` lie in `[fPMIN, fPMAX]`, so
their average lies in `[0, 1]`. -/
lemma half_clamp_bounds (a b : ℚ) :
    0 ≤ 0.5 * (max fPMIN (min fPMAX a) + max fPMIN (min fPMAX b)) ∧
    0.5 * (max fPMIN (min fPMAX a) + max fPMIN (min fPMAX b)) ≤ 1 := by
  have hminA : fPMIN ≤ max fPMIN (min fPMAX a) := le_max_left _ _
  have hminB : fPMIN ≤ max fPMIN (min fPMAX b) := le_max_left _ _
  have hmaxA : max fPMIN (min fPMAX a) ≤ fPMAX :=
    max_le (by norm_num [fPMIN, fPMAX]) (min_le_left _ _)
  have hmaxB : max fPMIN (min fPMAX b) ≤ fPMAX :=
    max_le (by norm_num [fPMIN, fPMAX]) (min_le_left _ _)
  have h1 : (0:ℚ) < fPMIN := by norm_num [fPMIN]
  have h2 : fPMAX ≤ 1 := by norm_num [fPMAX]
  constructor <;> nlinarith

/-- The single clamp of `_ndvi2fpar_lin` lies in `[0, 1]`. -/
lemma clamp_bounds (e : ℚ) :
    0 ≤ max fPMIN (min fPMAX e) ∧ max fPMIN (min fPMAX e) ≤ 1 := by
  constructor
  · exact le_trans (by norm_num [fPMIN]) (le_max_left _ _)
  · exact max_le (by norm_num [fPMIN]) (le_trans (min_le_left _ _) (by norm_num [fPMAX]))

/-- Bounds for one cell of Policy C when the input value lies in [-1, 1]. -/
lemma jojoCell_bounds (x : Option ℚ) (hx : ∀ v, x = some v → -1 ≤ v ∧ v ≤ 1) :
    0 ≤ ndvi2fparJojoCell x ∧ ndvi2fparJojoCell x ≤ 1 := by
  cases x with
  | none => norm_num [ndvi2fparJojoCell]
  | some v =>
    obtain ⟨hv1, hv2⟩ := hx v rfl
    simp only [ndvi2fparJojoCell]
    split_ifs with hA hB
    · have hr : (v - 0.15) / (0.75 - 0.15) * 0.75 = 1.25 * v - 0.1875 := by ring
      rw [hr]
      obtain ⟨hA1, hA2⟩ := hA
      constructor <;> linarith
    · constructor <;> linarith
    · norm_num

/-- Bounds for one cell of Policy B. -/
lemma linCell_bounds (x : Option ℚ) :
    0 ≤ ndvi2fparLinCell x ∧ ndvi2fparLinCell x ≤ 1 := by
  cases x with
  | none => norm_num [ndvi2fparLinCell]
  | some v => exact clamp_bounds _

/-- Bounds for one cell of Policy A. -/
lemma losCell_bounds (lct : Option ℤ) (x : Option ℚ) :
    0 ≤ ndvi2fparLosCell lct x ∧ ndvi2fparLosCell lct x ≤ 1 := by
  cases x with
  | none => cases lct <;> norm_num [ndvi2fparLosCell]
  | some v =>
    cases lct with
    | none => norm_num [ndvi2fparLosCell]
    | some k =>
      by_cases hk : 0 ≤ k ∧ k < (NTYPE : ℤ)
      · refine ⟨?_, ?_⟩ <;> simp only [ndvi2fparLosCell, if_pos hk]
        · exact (half_clamp_bounds _ _).1
        · exact (half_clamp_bounds _ _).2
      · refine ⟨?_, ?_⟩ <;> simp only [ndvi2fparLosCell, if_neg hk] <;> norm_num

/-- Second eligible test pixel. -/
def okPix2 : Pixel := ⟨0, 0, 200, 400, 0, 0⟩

/-- C1 (counterexample): at NDVI = 0.5 the active policy `_ndvi2fpar_jojo`
yields `(0.5 - 0.15)/(0.75 - 0.15)*0.75 = 0.4375`, which is not within the
claimed tolerance 1e-6 of the claimed output 0.4667. -/
theorem policyC_example_counterexample :
    ndvi2fparJojoCell (some 0.5) = 0.4375 ∧
    ¬ |ndvi2fparJojoCell (some 0.5) - 0.4667| ≤ 1 / 1000000 := by
  have h : ndvi2fparJojoCell (some 0.5) = 0.4375 := by
    norm_num [ndvi2fparJojoCell]
  refine ⟨h, ?_⟩
  rw [h, show (0.4375:ℚ) - 0.4667 = -(73/2500) by norm_num, abs_neg,
    abs_of_nonneg (by norm_num : (0:ℚ) ≤ 73/2500)]
  norm_num

/-- C1 (amended): the active conversion policy `_ndvi2fpar_jojo` equals the
reference piecewise map with N0 = 0.15, N1 = 0.75 (zero at or below N0, the
ramp `(ndvi - N0)/(N1 - N0)*N1` on (N0, N1], identity above N1, zero on
undefined input), and applied to the NDVI sequence
[-0.2, 0.10, 0.15, 0.5, 0.75, 0.9] it yields [0, 0, 0, 0.4375, 0.75, 0.9]. -/
theorem policyC_matches_reference :
    (∀ x, ndvi2fparJojoCell x = refPolicyC x) ∧
    ndvi2fparJojo [some (-0.2), some 0.10, some 0.15, some 0.5, some 0.75, some 0.9]
      = [0, 0, 0, 0.4375, 0.75, 0.9] := by
  constructor
  · intro x
    cases x with
    | none => rfl
    | some v =>
      simp only [ndvi2fparJojoCell, refPolicyC]
      rcases le_or_lt v 0.15 with h1 | h1
      · have hA : ¬((0.15:ℚ) < v ∧ v ≤ 0.75) := by rintro ⟨h, _⟩; linarith
        have hB : ¬((0.75:ℚ) < v) := by linarith
        simp [hA, hB, h1]
      · rcases le_or_lt v 0.75 with h2 | h2
        · have hn : ¬ v ≤ (0.15:ℚ) := by linarith
          simp [h1, h2, hn]
        · have hn : ¬ v ≤ (0.15:ℚ) := by linarith
          have hn2 : ¬ v ≤ (0.75:ℚ) := by linarith
          have hA : ¬((0.15:ℚ) < v ∧ v ≤ 0.75) := by rintro ⟨_, h⟩; linarith
          simp [h2, hn, hn2, hA]
  · norm_num [ndvi2fparJojo, ndvi2fparJojoCell]

/-- C2: a cell with zero contributing eligible pixels has zero red and nir
sums, its derived NDVI is the undefined marker (`fdiv` is total, so nothing
is raised and no diagnostic exists in the model), and each of the three
conversion policies maps the undefined cell to fpar = 0. -/
theorem undefinedPropagation (bin : ℚ → ℚ → Option ℕ) (files : List (List Pixel))
    (c : ℕ) (lct : Option ℤ) (h : accumNum bin files c = 0) :
    accumRed bin files c = 0 ∧ accumNir bin files c = 0 ∧
    deriveNDVI (accumRed bin files c) (accumNir bin files c) = none ∧
    ndvi2fparLosCell lct none = 0 ∧ ndvi2fparLinCell none = 0 ∧
    ndvi2fparJojoCell none = 0 := by
  have hb := binned_eq_nil_of_accumNum_eq_zero bin files c h
  have hred : accumRed bin files c = 0 := by
    apply List.sum_eq_zero
    intro x hx
    obtain ⟨g, hg, rfl⟩ := List.mem_map.mp hx
    simp [redgran, hb g hg]
  have hnir : accumNir bin files c = 0 := by
    apply List.sum_eq_zero
    intro x hx
    obtain ⟨g, hg, rfl⟩ := List.mem_map.mp hx
    simp [nirgran, hb g hg]
  refine ⟨hred, hnir, ?_, ?_, rfl, rfl⟩
  · rw [hred, hnir]
    norm_num [deriveNDVI, fdiv]
  · cases lct <;> rfl

/-- C2 witness: one granule whose only pixel carries the red fill sentinel,
so cell 0 receives no pixel. -/
theorem undefinedPropagation_witness :
    accumNum bin0 [[badPix]] 0 = 0 ∧
    (accumRed bin0 [[badPix]] 0 = 0 ∧ accumNir bin0 [[badPix]] 0 = 0 ∧
     deriveNDVI (accumRed bin0 [[badPix]] 0) (accumNir bin0 [[badPix]] 0) = none ∧
     ndvi2fparLosCell (some 3) none = 0 ∧ ndvi2fparLinCell none = 0 ∧
     ndvi2fparJojoCell none = 0) := by
  have h : accumNum bin0 [[badPix]] 0 = 0 := by
    norm_num [accumNum, numgran, binned, iok, badPix, bin0, NDVIMIN, List.filter]
  exact ⟨h, undefinedPropagation bin0 [[badPix]] 0 (some 3) h⟩

/-- C3: accumulation over granule files is order-independent: any
permutation of the file list yields the same accumulator cell values, and
for a partition into two non-empty sublists the element-wise sum of the two
partial accumulators equals the accumulator of the whole list.  The
embedding models the accumulator arrays over exact rationals, where these
equalities are exact. -/
theorem accumOrderIndependent (bin : ℚ → ℚ → Option ℕ)
    (A B P : List (List Pixel)) (c : ℕ)
    (hA : A ≠ []) (hB : B ≠ []) (hP : P.Perm (A ++ B)) :
    (accumNum bin P c = accumNum bin (A ++ B) c ∧
     accumRed bin P c = accumRed bin (A ++ B) c ∧
     accumNir bin P c = accumNir bin (A ++ B) c) ∧
    (accumNum bin A c + accumNum bin B c = accumNum bin (A ++ B) c ∧
     accumRed bin A c + accumRed bin B c = accumRed bin (A ++ B) c ∧
     accumNir bin A c + accumNir bin B c = accumNir bin (A ++ B) c) := by
  refine ⟨⟨?_, ?_, ?_⟩, ?_, ?_, ?_⟩
  · exact List.Perm.sum_eq (hP.map _)
  · exact List.Perm.sum_eq (hP.map _)
  · exact List.Perm.sum_eq (hP.map _)
  · simp [accumNum, List.map_append, List.sum_append]
  · simp [accumRed, List.map_append, List.sum_append]
  · simp [accumNir, List.map_append, List.sum_append]

/-- C3 witness: two one-granule batches processed in swapped order. -/
theorem accumOrderIndependent_witness :
    ([[okPix]] : List (List Pixel)) ≠ [] ∧ ([[okPix2]] : List (List Pixel)) ≠ [] ∧
    (([[okPix2], [okPix]] : List (List Pixel)).Perm ([[okPix]] ++ [[okPix2]])) ∧
    ((accumNum bin0 [[okPix2], [okPix]] 0 = accumNum bin0 ([[okPix]] ++ [[okPix2]]) 0 ∧
      accumRed bin0 [[okPix2], [okPix]] 0 = accumRed bin0 ([[okPix]] ++ [[okPix2]]) 0 ∧
      accumNir bin0 [[okPix2], [okPix]] 0 = accumNir bin0 ([[okPix]] ++ [[okPix2]]) 0) ∧
     (accumNum bin0 [[okPix]] 0 + accumNum bin0 [[okPix2]] 0
        = accumNum bin0 ([[okPix]] ++ [[okPix2]]) 0 ∧
      accumRed bin0 [[okPix]] 0 + accumRed bin0 [[okPix2]] 0
        = accumRed bin0 ([[okPix]] ++ [[okPix2]]) 0 ∧
      accumNir bin0 [[okPix]] 0 + accumNir bin0 [[okPix2]] 0
        = accumNir bin0 ([[okPix]] ++ [[okPix2]]) 0)) :=
  ⟨by simp, by simp, List.Perm.swap _ _ _,
   accumOrderIndependent bin0 [[okPix]] [[okPix2]] [[okPix2], [okPix]] 0
     (by simp) (by simp) (List.Perm.swap _ _ _)⟩

/-- C4: aggregation over an empty glob match set fails with the
no-input-data error; the error branch is taken before any accumulation, so
no field of the output dataset is written. -/
theorem aggregateEmptyFails (ds : VegIndDS) (bin : ℚ → ℚ → Option ℕ)
    (mask : Option (List ℚ)) :
    regrid ds bin [] mask = Except.error RegridError.noInputData := rfl

/-- C5 (counterexample): on a derived NDVI grid with an uncovered cell, the
all-zero mask does not collapse the cell to NDVIMIN: NaN times 0 stays NaN,
so the blended cell is still undefined rather than NDVIMIN. -/
theorem maskZeroCounterexample :
    Except.map VegIndDS.ndvi (regrid dsTest bin0 [⟨"g.hdf", [badPix]⟩] (some [0]))
      = Except.ok [none] ∧ ([none] : List (Option ℚ)) ≠ [some NDVIMIN] := by
  have hbad : iok badPix = false := by norm_num [iok, badPix, NDVIMIN]
  constructor
  · simp [regrid, dsTest, regridNDVI, applyMask, blendCell, deriveNDVI, fdiv,
      accumRed, accumNir, redgran, nirgran, binned, List.filter_cons, hbad,
      List.range_succ, List.range_zero, Except.map]
  · simp

/-- C5 (amended): the blend `(ndvi - NDVIMIN)*mask + NDVIMIN` with mask 1
returns the cell unchanged (defined or not); with mask 0 it returns NDVIMIN
at every defined cell, while an undefined cell stays undefined. -/
theorem maskBlendIdentity (x : Option ℚ) :
    blendCell x 1 = x ∧
    (∀ v, x = some v → blendCell x 0 = some NDVIMIN) ∧
    (x = none → blendCell x 0 = none) := by
  refine ⟨?_, ?_, ?_⟩
  · cases x with
    | none => rfl
    | some v => simp [blendCell]
  · rintro v rfl
    simp [blendCell]
  · rintro rfl
    rfl

/-- C5 witness: a defined cell under the all-zero mask collapses to the
floor value. -/
theorem maskBlendIdentity_witness :
    ((some 0.5 : Option ℚ) = some 0.5) ∧ blendCell (some 0.5) 0 = some NDVIMIN :=
  ⟨rfl, (maskBlendIdentity (some 0.5)).2.1 0.5 rfl⟩

/-- C6: eligibility is exactly the conjunction of the five filter
conditions; in particular a red magnitude of 32767 alone excludes the
pixel, a QC flag of 255 alone excludes it, and every binned pixel is
eligible. -/
theorem qcExclusion (p : Pixel) :
    (iok p = true ↔
      (|p.red| ≠ 32767 ∧ |p.nir| ≠ 32767 ∧ p.redqc ≠ 255 ∧ p.nirqc ≠ 255 ∧
       NDVIMIN * (p.nir + p.red) ≤ p.nir - p.red)) ∧
    (|p.red| = 32767 → iok p = false) ∧
    ((p.redqc = 255 ∨ p.nirqc = 255) → iok p = false) ∧
    (∀ bin c g, p ∈ binned bin c g → iok p = true) := by
  have hiff : iok p = true ↔
      (|p.red| ≠ 32767 ∧ |p.nir| ≠ 32767 ∧ p.redqc ≠ 255 ∧ p.nirqc ≠ 255 ∧
       NDVIMIN * (p.nir + p.red) ≤ p.nir - p.red) := by
    simp only [iok, Bool.and_eq_true, decide_eq_true_eq]
    tauto
  refine ⟨hiff, ?_, ?_, ?_⟩
  · intro h
    cases hio : iok p with
    | false => rfl
    | true => exact absurd h (hiff.mp hio).1
  · intro h
    cases hio : iok p with
    | false => rfl
    | true =>
      rcases h with h | h
      · exact absurd h (hiff.mp hio).2.2.1
      · exact absurd h (hiff.mp hio).2.2.2.1
  · intro b c g hm
    simp only [binned, List.mem_filter, Bool.and_eq_true] at hm
    exact hm.2.1

/-- C6 witness: the fill-sentinel pixel is excluded although its other
fields are valid. -/
theorem qcExclusion_witness :
    |badPix.red| = 32767 ∧ iok badPix = false := by
  have h : |badPix.red| = 32767 := by
    rw [show badPix.red = 32767 from rfl]
    exact abs_of_nonneg (by norm_num)
  exact ⟨h, (qcExclusion badPix).2.1 h⟩

/-- C7 (counterexample): the pixel with red = -7, nir = -3 satisfies the
fifth filter condition (and the whole filter), yet its implied NDVI is
(nir - red)/(nir + red) = -0.4, strictly below the floor NDVIMIN = -0.3:
with a negative band sum the division flips the inequality, so the two
conditions are not equivalent for every pixel. -/
theorem ndviFloorCounterexample :
    NDVIMIN * (pNeg.nir + pNeg.red) ≤ pNeg.nir - pNeg.red ∧
    iok pNeg = true ∧
    ¬ NDVIMIN ≤ (pNeg.nir - pNeg.red) / (pNeg.nir + pNeg.red) := by
  refine ⟨by norm_num [pNeg, NDVIMIN], by norm_num [iok, pNeg, NDVIMIN],
    by norm_num [pNeg, NDVIMIN]⟩

/-- C7 (amended): for every pixel whose band sum nir + red is positive, the
fifth filter condition `NDVIMIN*(nir + red) ≤ nir - red` is equivalent to
the implied NDVI `(nir - red)/(nir + red)` being at least NDVIMIN. -/
theorem ndviFloorEquiv (red nir : ℚ) (h : 0 < nir + red) :
    (NDVIMIN * (nir + red) ≤ nir - red ↔
     NDVIMIN ≤ (nir - red) / (nir + red)) := by
  rw [le_div_iff₀ h]

/-- C7 witness at red = 100, nir = 300. -/
theorem ndviFloorEquiv_witness :
    (0:ℚ) < 300 + 100 ∧
    (NDVIMIN * ((300:ℚ) + 100) ≤ 300 - 100 ↔
     NDVIMIN ≤ ((300:ℚ) - 100) / (300 + 100)) :=
  ⟨by norm_num, ndviFloorEquiv 100 300 (by norm_num)⟩

/-- Every value of the grid-level Policy A lies in [0, 1]. -/
lemma mem_ndvi2fparLos_bounds :
    ∀ (lc : List (Option ℤ)) (g : List (Option ℚ)) y,
      y ∈ ndvi2fparLos lc g → 0 ≤ y ∧ y ≤ 1 := by
  intro lc
  induction lc with
  | nil =>
    intro g y hy
    simp [ndvi2fparLos] at hy
  | cons k ks ih =>
    intro g y hy
    cases g with
    | nil => simp [ndvi2fparLos] at hy
    | cons x xs =>
      simp only [ndvi2fparLos, List.zipWith_cons_cons, List.mem_cons] at hy
      rcases hy with rfl | hy
      · exact losCell_bounds k x
      · exact ih xs y hy

/-- C8: on an NDVI field whose defined cells lie in [-1, 1], each of the
three conversion policies produces an fPAR field with every cell in [0, 1],
of the same shape as the input, and with value 0 at every undefined NDVI
cell. -/
theorem fparFieldInvariant (g : List (Option ℚ)) (lc : List (Option ℤ))
    (hg : ∀ x ∈ g, ∀ v, x = some v → -1 ≤ v ∧ v ≤ 1)
    (hlen : lc.length = g.length) :
    (∀ y ∈ ndvi2fparJojo g, 0 ≤ y ∧ y ≤ 1) ∧
    (∀ y ∈ ndvi2fparLin g, 0 ≤ y ∧ y ≤ 1) ∧
    (∀ y ∈ ndvi2fparLos lc g, 0 ≤ y ∧ y ≤ 1) ∧
    (ndvi2fparJojo g).length = g.length ∧
    (ndvi2fparLin g).length = g.length ∧
    (ndvi2fparLos lc g).length = g.length ∧
    (∀ i : ℕ, g[i]? = some none →
      (ndvi2fparJojo g)[i]? = some (0:ℚ) ∧ (ndvi2fparLin g)[i]? = some (0:ℚ) ∧
      (ndvi2fparLos lc g)[i]? = some (0:ℚ)) := by
  refine ⟨?_, ?_, ?_, ?_, ?_, ?_, ?_⟩
  · intro y hy
    obtain ⟨x, hx, rfl⟩ := List.mem_map.mp hy
    exact jojoCell_bounds x (hg x hx)
  · intro y hy
    obtain ⟨x, hx, rfl⟩ := List.mem_map.mp hy
    exact linCell_bounds x
  · exact mem_ndvi2fparLos_bounds lc g
  · simp [ndvi2fparJojo]
  · simp [ndvi2fparLin]
  · simp [ndvi2fparLos, hlen]
  · intro i hi
    have hglen : i < g.length := by
      by_contra hcon
      push_neg at hcon
      rw [List.getElem?_eq_none hcon] at hi
      cases hi
    have hlcl : i < lc.length := by
      rw [hlen]
      exact hglen
    obtain ⟨k, hk⟩ : ∃ k, lc[i]? = some k := ⟨lc[i], List.getElem?_eq_getElem hlcl⟩
    have hklos : ndvi2fparLosCell k none = 0 := by cases k <;> rfl
    refine ⟨?_, ?_, ?_⟩
    · show (g.map ndvi2fparJojoCell)[i]? = some (0:ℚ)
      rw [List.getElem?_map, hi]
      rfl
    · show (g.map ndvi2fparLinCell)[i]? = some (0:ℚ)
      rw [List.getElem?_map, hi]
      rfl
    · show (List.zipWith ndvi2fparLosCell lc g)[i]? = some (0:ℚ)
      rw [List.getElem?_zipWith', hk, hi]
      simp [hklos]

/-- C8 witness on a two-cell field with one defined and one undefined cell. -/
theorem fparFieldInvariant_witness :
    (∀ x ∈ ([some 0.5, none] : List (Option ℚ)), ∀ v, x = some v → -1 ≤ v ∧ v ≤ 1) ∧
    ([some 1, none] : List (Option ℤ)).length = ([some 0.5, none] : List (Option ℚ)).length ∧
    ((∀ y ∈ ndvi2fparJojo [some 0.5, none], 0 ≤ y ∧ y ≤ 1) ∧
     (∀ y ∈ ndvi2fparLin [some 0.5, none], 0 ≤ y ∧ y ≤ 1) ∧
     (∀ y ∈ ndvi2fparLos [some 1, none] [some 0.5, none], 0 ≤ y ∧ y ≤ 1) ∧
     (ndvi2fparJojo [some 0.5, none]).length = ([some 0.5, none] : List (Option ℚ)).length ∧
     (ndvi2fparLin [some 0.5, none]).length = ([some 0.5, none] : List (Option ℚ)).length ∧
     (ndvi2fparLos [some 1, none] [some 0.5, none]).length
        = ([some 0.5, none] : List (Option ℚ)).length ∧
     (∀ i : ℕ, ([some 0.5, none] : List (Option ℚ))[i]? = some none →
       (ndvi2fparJojo [some 0.5, none])[i]? = some (0:ℚ) ∧
       (ndvi2fparLin [some 0.5, none])[i]? = some (0:ℚ) ∧
       (ndvi2fparLos [some 1, none] [some 0.5, none])[i]? = some (0:ℚ))) := by
  have hg : ∀ x ∈ ([some 0.5, none] : List (Option ℚ)), ∀ v, x = some v → -1 ≤ v ∧ v ≤ 1 := by
    intro x hx v hv
    fin_cases hx
    · injection hv with h
      subst h
      constructor <;> norm_num
    · cases hv
  have hlen : ([some 1, none] : List (Option ℤ)).length
      = ([some 0.5, none] : List (Option ℚ)).length := rfl
  exact ⟨hg, hlen, fparFieldInvariant [some 0.5, none] [some 1, none] hg hlen⟩

/-- Looking up the key just written. -/
lemma getAttr_setAttr (attrs : List (String × String)) (k v : String) :
    getAttr (setAttr attrs k v) k = v := by
  simp [getAttr, setAttr, List.find?]

/-- C9 (counterexample): with the glob returning ["b.hdf", "a.hdf"], the
recorded provenance attribute is "b.hdf, a.hdf" — the basenames in glob
order — while the sorted comma-joined list is "a.hdf, b.hdf"; `_regrid`
never sorts the glob result. -/
theorem provenanceNotSorted :
    (∃ r, regrid dsTest bin0 [⟨"b.hdf", []⟩, ⟨"a.hdf", []⟩] none = Except.ok r ∧
      getAttr r.attrs "input_files" = "b.hdf, a.hdf") ∧
    specInputFiles ["b.hdf", "a.hdf"] = "a.hdf, b.hdf" ∧
    ("b.hdf, a.hdf" : String) ≠ "a.hdf, b.hdf" := by
  refine ⟨⟨_, rfl, ?_⟩, ?_, ?_⟩
  · decide
  · decide
  · decide

/-- C9 (amended): after a successful aggregation the `input_files`
attribute is the list of contributing granule basenames in the order the
glob returned them, joined by ", ". -/
theorem provenanceGlobOrder (ds : VegIndDS) (bin : ℚ → ℚ → Option ℕ)
    (flist : List Granule) (mask : Option (List ℚ)) (h : flist ≠ []) :
    ∃ r, regrid ds bin flist mask = Except.ok r ∧
      getAttr r.attrs "input_files" = inputFilesAttr (flist.map Granule.name) := by
  cases flist with
  | nil => exact absurd rfl h
  | cons f fs =>
    refine ⟨_, rfl, ?_⟩
    exact getAttr_setAttr _ _ _

/-- C9 witness on a single-granule directory. -/
theorem provenanceGlobOrder_witness :
    ([⟨"a.hdf", [okPix]⟩] : List Granule) ≠ [] ∧
    (∃ r, regrid dsTest bin0 [⟨"a.hdf", [okPix]⟩] none = Except.ok r ∧
      getAttr r.attrs "input_files"
        = inputFilesAttr (([⟨"a.hdf", [okPix]⟩] : List Granule).map Granule.name)) :=
  ⟨by simp, provenanceGlobOrder dsTest bin0 [⟨"a.hdf", [okPix]⟩] none (by simp)⟩

/-- C10: `ndvi2fpar` is pure on its receiver in the embedding and returns a
new dataset: the result's NDVI variable, coordinate arrays and attributes
equal those of the input unchanged, and its only new content is the fPAR
variable computed by the active policy `_ndvi2fpar_jojo`. -/
theorem ndvi2fparFrame (ds : VegIndDS) (lctype : List (Option ℤ)) :
    (ds.ndvi2fpar lctype).ndvi = ds.ndvi ∧
    (ds.ndvi2fpar lctype).lat = ds.lat ∧
    (ds.ndvi2fpar lctype).lon = ds.lon ∧
    (ds.ndvi2fpar lctype).attrs = ds.attrs ∧
    (ds.ndvi2fpar lctype).fpar = some (ndvi2fparJojo ds.ndvi) :=
  ⟨rfl, rfl, rfl, rfl, rfl⟩
